import Mathlib

/-!
Shallow embedding of the data-reconciliation and graph-population pipeline
(`util/parse.py`, `subcommands/store_in_neo4j.py`) of the
open_source_android_apps repository, together with theorems settling the
claims about its specification.

Conventions of the embedding:
* Python dictionaries are modelled as association lists (`List (String × α)`);
  insertion order is the list order, matching CPython's order-preserving dicts.
* Parsed JSON values are modelled by the inductive `Json`; JSON files on disk
  are assumed to parse to JSON objects (the Python code calls `.get` on every
  loaded file and would fail with `AttributeError` otherwise).
* Python exceptions (`KeyError`, `AttributeError`, `ValueError`, ...) are
  modelled with `Except String`; a raised exception aborts the function,
  exactly as the uncaught exception does in Python.
* Machine floats only occur as POSIX timestamps of whole-second file dates;
  they are modelled as integers (seconds).  `datetime.timestamp` is modelled
  in UTC; no claim depends on the time-zone offset.
* Python `set`s of package names are modelled as lists; the only claim
  touching their iteration order uses singleton sets, for which the order is
  determined.
-/

/-! ### Generic association-list helpers (Python `dict` as a list of pairs) -/

/-- Lookup in an association list: `d.get(key)` / `key in d`. -/
def lookupA {α : Type} : List (String × α) → String → Option α
  | [], _ => none
  | (k, v) :: rest, key => if k = key then some v else lookupA rest key

/-- Remove a key from an association list: `del d[key]`. -/
def eraseA {α : Type} (m : List (String × α)) (key : String) :
    List (String × α) :=
  m.filter (fun e => e.1 ≠ key)

/-- Replace the value stored at a key, or append the binding if the key is
absent; the Python `d[key] = v` on an order-preserving dict. -/
def setA {α : Type} : List (String × α) → String → α → List (String × α)
  | [], key, v => [(key, v)]
  | (k, w) :: rest, key, v =>
    if k = key then (k, v) :: rest else (k, w) :: setA rest key v

/-! ### Python string comparison

Python compares strings lexicographically by code point; `strLeB` embeds
that order on the underlying character lists. -/

/-- Lexicographic less-or-equal on character lists (Python string `<=`). -/
def strLeB : List Char → List Char → Bool
  | [], _ => true
  | _ :: _, [] => false
  | a :: as, b :: bs => if a < b then true else if a = b then strLeB as bs else false

/-- Python string comparison `a <= b`. -/
def pyStrLe (a b : String) : Bool := strLeB a.data b.data

/-! ### JSON values (`json.load` results) -/

/-- A parsed JSON value. -/
inductive Json where
  | null : Json
  | bool : Bool → Json
  | num : Int → Json
  | str : String → Json
  | arr : List Json → Json
  | obj : List (String × Json) → Json

/-- A JSON object body: the association list of a `Json.obj`. -/
abbrev JsonObj := List (String × Json)

/-- Python truthiness of a JSON value (`if x:`). -/
def jsonTruthy : Json → Bool
  | .null => false
  | .bool b => b
  | .num n => n ≠ 0
  | .str s => s ≠ ""
  | .arr l => ¬ l.isEmpty
  | .obj o => ¬ o.isEmpty

/-- Python `==` between a JSON value and a string literal: equal exactly when
the value is that string (values of other types compare unequal). -/
def jsonIsStr (j : Json) (s : String) : Bool :=
  match j with
  | .str t => t = s
  | _ => false

/-- Subscript access `d[key]` of a Python dict: `KeyError` when absent. -/
def objGetE (d : JsonObj) (key : String) : Except String Json :=
  match lookupA d key with
  | some v => Except.ok v
  | none => Except.error ("KeyError: " ++ key)

/-- Coerce a JSON value to a dict, as Python method access (`.get`,
`.setdefault`) on a non-dict raises `AttributeError`. -/
def asObj : Json → Except String JsonObj
  | .obj o => Except.ok o
  | _ => Except.error "AttributeError: not a dict"

/-- Coerce a JSON value to a list, as Python list operations (indexing,
`.append`) on a non-list raise a `TypeError`/`AttributeError`. -/
def asArr : Json → Except String (List Json)
  | .arr l => Except.ok l
  | _ => Except.error "AttributeError: not a list"

/-- Explicit bind on `Except String`, used instead of do-notation so that
every fallible step of the embedded Python is a visible `ebind`. -/
def ebind {α β : Type} : Except String α → (α → Except String β) →
    Except String β
  | Except.ok a, f => f a
  | Except.error e, _ => Except.error e

@[simp] theorem ebind_ok {α β : Type} (a : α) (f : α → Except String β) :
    ebind (Except.ok a) f = f a := rfl

@[simp] theorem ebind_error {α β : Type} (e : String)
    (f : α → Except String β) : ebind (Except.error e) f = Except.error e := rfl

theorem ebind_eq_ok {α β : Type} {x : Except String α}
    {f : α → Except String β} {b : β} (h : ebind x f = Except.ok b) :
    ∃ a, x = Except.ok a ∧ f a = Except.ok b := by
  cases x with
  | ok a => exact ⟨a, rfl, h⟩
  | error e => simp [ebind] at h

/-! ### Metadata Parser (`util/parse.py`) -/

/-- Month abbreviations accepted by `strptime`'s `%b` directive. -/
def monthAbbrev : List (String × Nat) :=
  [("Jan", 1), ("Feb", 2), ("Mar", 3), ("Apr", 4), ("May", 5), ("Jun", 6),
   ("Jul", 7), ("Aug", 8), ("Sep", 9), ("Oct", 10), ("Nov", 11), ("Dec", 12)]

/-- Gregorian leap-year test. -/
def isLeapYear (y : Nat) : Bool :=
  (y % 4 = 0 && y % 100 ≠ 0) || y % 400 = 0

/-- Cumulative day counts before each month in a non-leap year. -/
def daysBeforeMonth : Nat → Nat
  | 1 => 0 | 2 => 31 | 3 => 59 | 4 => 90 | 5 => 120 | 6 => 151
  | 7 => 181 | 8 => 212 | 9 => 243 | 10 => 273 | 11 => 304 | 12 => 334
  | _ => 0

/-- Days in a given month of a given year. -/
def daysInMonth (y m : Nat) : Nat :=
  if m = 2 then (if isLeapYear y then 29 else 28)
  else if m = 4 ∨ m = 6 ∨ m = 9 ∨ m = 11 then 30
  else 31

/-- Day number of a proleptic-Gregorian date counted from year 1 (the date
1-01-01 is day 0). -/
def civilOrdinal (y m d : Nat) : Nat :=
  365 * (y - 1) + (y - 1) / 4 - (y - 1) / 100 + (y - 1) / 400
    + daysBeforeMonth m
    + (if 2 < m && isLeapYear y then 1 else 0)
    + (d - 1)

/-- POSIX timestamp (UTC, whole seconds) of midnight on a Gregorian date.
`datetime.timestamp` applies the local time zone; the embedding fixes UTC,
which no claim depends on. -/
def civilTimestamp (y m d : Nat) : Int :=
  ((civilOrdinal y m d : Int) - (civilOrdinal 1970 1 1 : Int)) * 86400

/-- Embedding of `datetime.strptime(s, '%b %d, %Y').timestamp()`: parse a
date written like `Jun 3, 2017`; a string not of that shape raises
`ValueError`. -/
def strptimeTimestamp (s : String) : Except String Int :=
  match s.splitOn ", " with
  | [monthDay, yearStr] =>
    match monthDay.splitOn " " with
    | [mon, dayStr] =>
      match lookupA monthAbbrev mon, dayStr.toNat?, yearStr.toNat? with
      | some m, some d, some y =>
        if 1 ≤ d && d ≤ daysInMonth y m && yearStr.length = 4 then
          Except.ok (civilTimestamp y m d)
        else Except.error "ValueError: bad date"
      | _, _, _ => Except.error "ValueError: bad date"
    | _ => Except.error "ValueError: bad date"
  | _ => Except.error "ValueError: bad date"

/-- Embedding of `parse_upload_date` (util/parse.py:114): read the optional
`uploadDate` field and convert it to a POSIX timestamp; an absent or falsy
value yields `None`, a malformed or non-string value raises. -/
def parse_upload_date (app_details : JsonObj) : Except String (Option Int) :=
  let uds := (lookupA app_details "uploadDate").getD Json.null
  if jsonTruthy uds then
    match uds with
    | Json.str s => ebind (strptimeTimestamp s) (fun t => Except.ok (some t))
    | _ => Except.error "TypeError: strptime argument"
  else Except.ok none

/-- Loop body of `describe_in_app_purchases` (util/parse.py:108): scan the
`productDetails.section` entries for the one titled `In-app purchases` and
return `section['description'][0]['description']`. -/
def describeIapLoop : List Json → Except String Json
  | [] => Except.ok Json.null
  | s :: rest =>
    ebind (asObj s) (fun so =>
      ebind (objGetE so "title") (fun title =>
        if jsonIsStr title "In-app purchases" then
          ebind (objGetE so "description") (fun desc =>
            ebind (asArr desc) (fun dl =>
              match dl with
              | d0 :: _ => ebind (asObj d0) (fun d0o => objGetE d0o "description")
              | [] => Except.error "IndexError: list index out of range"))
        else describeIapLoop rest))

/-- Embedding of `describe_in_app_purchases` (util/parse.py:98). -/
def describe_in_app_purchases (meta_data : JsonObj) : Except String Json :=
  ebind (asObj ((lookupA meta_data "productDetails").getD (Json.obj [])))
    (fun pd =>
      ebind (asArr ((lookupA pd "section").getD (Json.arr [])))
        describeIapLoop)

/-- Result record of `parse_google_play_info`: the node-property dictionary
built at util/parse.py:179.  Timestamps are `Option Int` (Python `None` /
float seconds); all other values keep their JSON shape. -/
structure GPRecord where
  docId : Json
  uri : Json
  snapshotTimestamp : Option Int
  title : Json
  appCategory : Json
  promotionalDescription : Json
  descriptionHtml : Json
  translatedDescriptionHtml : Json
  versionCode : Json
  versionString : Json
  uploadDate : Option Int
  formattedAmount : Json
  currencyCode : Json
  inAppPurchases : Json
  installNotes : Json
  starRating : Json
  numDownloads : Json
  developerName : Json
  developerEmail : Json
  developerWebsite : Json
  targetSdkVersion : Json
  permissions : Json

/-- A directory of JSON files: path ↦ (parsed object, mtime).  Only files
that exist and parse to JSON objects appear (the Python code calls `.get`
on every parsed file, so non-object files would fail immediately). -/
structure PlayFS where
  files : List (String × (JsonObj × Int))

/-- Lookup a file by path. -/
def fsFind (fs : PlayFS) (path : String) : Option (JsonObj × Int) :=
  lookupA fs.files path

/-- `os.path.join` for a relative second component. -/
def joinPath (a b : String) : String := a ++ "/" ++ b

/-- Embedding of the inner `_parse_json_file` (util/parse.py:142): return
the parsed JSON object and mtime, or `({}, None)` with a logged warning when
the file does not exist. -/
def parse_json_file (fs : PlayFS) (dirPrefix package_name : String) :
    JsonObj × Option Int :=
  match fsFind fs (joinPath dirPrefix (package_name ++ ".json")) with
  | none => ([], none)
  | some (o, t) => (o, some t)

/-- Offer handling of util/parse.py:163-169: read `offer[0]`'s formatted
amount and currency code when the offer list is truthy. -/
def parseOffer (meta_data : JsonObj) : Except String (Json × Json) :=
  let offerJ := (lookupA meta_data "offer").getD (Json.arr [])
  if jsonTruthy offerJ then
    ebind (asArr offerJ) (fun ol =>
      match ol with
      | o0 :: _ =>
        ebind (asObj o0) (fun oo =>
          Except.ok ((lookupA oo "formattedAmount").getD Json.null,
                     (lookupA oo "currencyCode").getD Json.null))
      | [] => Except.ok (Json.null, Json.null))
  else Except.ok (Json.null, Json.null)

/-- Category merge of util/parse.py:170-174: `setdefault` the `appCategory`
list inside `appDetails` and append the category file's `appCategory`
value; returns the updated `app_details` object. -/
def mergeCategory (app_details : JsonObj) (category_data : JsonObj) :
    Except String JsonObj :=
  if ¬ category_data.isEmpty then
    ebind (asArr ((lookupA app_details "appCategory").getD (Json.arr [])))
      (fun curl =>
        ebind (objGetE category_data "appCategory") (fun cat =>
          Except.ok (setA app_details "appCategory" (Json.arr (curl ++ [cat])))))
  else Except.ok app_details

/-- Embedding of `parse_google_play_info` (util/parse.py:130): read
`<dir>/<pkg>.json` and `<dir>/categories/<pkg>.json` from `fs` and build the
node-property record; `Except.ok none` is the definite "no data" result,
`Except.error` an uncaught Python exception.  Fallible steps appear in the
source's evaluation order (the dict literal at line 179 evaluates its values
top to bottom). -/
def parse_google_play_info (package_name play_details_dir : String)
    (fs : PlayFS) : Except String (Option GPRecord) :=
  let (meta0, mtime0) := parse_json_file fs play_details_dir package_name
  let (category_data, category_mtime) :=
    parse_json_file fs (joinPath play_details_dir "categories") package_name
  if meta0.isEmpty && category_data.isEmpty then Except.ok none
  else
    let meta_data :=
      if meta0.isEmpty then [("docId", Json.str package_name)] else meta0
    let mtime := if meta0.isEmpty then category_mtime else mtime0
    ebind (parseOffer meta_data) (fun offerPair =>
      ebind (asObj ((lookupA meta_data "details").getD (Json.obj [])))
        (fun details =>
          ebind (asObj ((lookupA details "appDetails").getD (Json.obj [])))
            (fun app_details0 =>
              ebind (mergeCategory app_details0 category_data)
                (fun app_details =>
                  let arJ := (lookupA meta_data "aggregateRating").getD Json.null
                  ebind (if jsonTruthy arJ then asObj arJ else Except.ok [])
                    (fun aggregate_rating =>
                      ebind (objGetE meta_data "promotionalDescription")
                        (fun promo =>
                          ebind (objGetE meta_data "descriptionHtml")
                            (fun descr =>
                              ebind (objGetE meta_data "translatedDescriptionHtml")
                                (fun transDescr =>
                                  ebind (parse_upload_date app_details)
                                    (fun upload =>
                                      ebind (describe_in_app_purchases meta_data)
                                        (fun iap =>
                                          Except.ok (some
                                            { docId := (lookupA meta_data "docId").getD Json.null
                                              uri := (lookupA meta_data "shareUrl").getD Json.null
                                              snapshotTimestamp := mtime
                                              title := (lookupA meta_data "title").getD Json.null
                                              appCategory := (lookupA app_details "appCategory").getD Json.null
                                              promotionalDescription := promo
                                              descriptionHtml := descr
                                              translatedDescriptionHtml := transDescr
                                              versionCode := (lookupA app_details "versionCode").getD Json.null
                                              versionString := (lookupA app_details "versionString").getD Json.null
                                              uploadDate := upload
                                              formattedAmount := offerPair.1
                                              currencyCode := offerPair.2
                                              inAppPurchases := iap
                                              installNotes := (lookupA app_details "installNotes").getD Json.null
                                              starRating := (lookupA aggregate_rating "starRating").getD Json.null
                                              numDownloads := (lookupA app_details "numDownloads").getD Json.null
                                              developerName := (lookupA app_details "developerName").getD Json.null
                                              developerEmail := (lookupA app_details "developerEmail").getD Json.null
                                              developerWebsite := (lookupA app_details "developerWebsite").getD Json.null
                                              targetSdkVersion := (lookupA app_details "targetSdkVersion").getD Json.null
                                              permissions := (lookupA app_details "permission").getD Json.null })))))))))))

/-! ### Record Reconciler (`util/parse.py`: `get_latest_repo_name`,
`consolidate_data`) -/

/-- A row of the original repository CSV, restricted to the columns the
reconciler reads (`id`, `full_name`, `renamed_to`, `not_found`); the
remaining columns are copied through unchanged and are not modelled. -/
structure RepoMeta where
  id : String
  full_name : String
  renamed_to : String
  not_found : String
deriving DecidableEq

/-- Embedding of `get_latest_repo_name` (util/parse.py:205): the original
name paired with the latest known name, where an empty `renamed_to` is falsy
and `not_found` is compared against the string `TRUE`. -/
def get_latest_repo_name (meta_data : RepoMeta) : String × Option String :=
  let original_repo := meta_data.full_name
  let renamed_to := meta_data.renamed_to
  let nf := meta_data.not_found = "TRUE"
  if renamed_to ≠ "" then (original_repo, some renamed_to)
  else if ¬ nf then (original_repo, some original_repo)
  else (original_repo, none)

/-- A row of the Gitlab-import CSV, restricted to the columns
`consolidate_data` reads. -/
structure GitlabRow where
  full_name : String
  renamed_to : String
  not_found : String
  clone_project_name : String
  clone_project_id : String
  clone_status : String
  clone_project_url : String
deriving DecidableEq

/-- A row of the mirrored-repositories CSV (keyed by `github_full_name`),
restricted to the columns `_correct_gitlab_data` copies. -/
structure MirrorRow where
  clone_project_name : String
  clone_project_id : String
  clone_project_path : String
deriving DecidableEq

/-- The consolidated record emitted for one repository.  The clone metadata
columns are `Option String` because the original CSV does not carry them:
they stay `none` when the Gitlab-import row is missing and no mirror row
matches (Python: the keys are absent from the dict). -/
structure Combined where
  id : String
  full_name : String
  renamed_to : String
  not_found : String
  clone_project_name : Option String
  clone_project_id : Option String
  clone_project_path : Option String
  clone_status : Option String
  packages : Option String
deriving DecidableEq

/-- `os.path.basename` for the forward-slash URLs in the Gitlab CSV. -/
def basename (s : String) : String := (s.splitOn "/").getLastD ""

/-- Embedding of `_correct_gitlab_data` (util/parse.py:251): overwrite the
clone metadata columns with the mirror row's values and force the clone
status to `Success`. -/
def correct_gitlab_data (old : Combined) (new : MirrorRow) : Combined :=
  { old with
      clone_project_name := some new.clone_project_name
      clone_project_id := some new.clone_project_id
      clone_project_path := some new.clone_project_path
      clone_status := some "Success" }

/-- Python truthiness of an optional string (`None` and `''` are falsy). -/
def strOptTruthy : Option String → Bool
  | none => false
  | some s => s ≠ ""

/-- Python `x in d` for an optional string against a string-keyed dict:
`None` is never among the keys. -/
def optMember {α : Type} (x : Option String) (d : List (String × α)) :
    Option α :=
  match x with
  | none => none
  | some s => lookupA d s

/-- Embedding of the mirror-repair branch of `consolidate_data`
(util/parse.py:300-304), exactly as written there:
`if not repo_name and repo_name in mirrored_repos: ...
elif legacy_name in mirrored_repos: ...`. -/
def apply_mirror_step (combined : Combined) (legacy_name : String)
    (repo_name : Option String) (mirrored : List (String × MirrorRow)) :
    Combined :=
  match (if strOptTruthy repo_name then none else optMember repo_name mirrored) with
  | some row => correct_gitlab_data combined row
  | none =>
    match lookupA mirrored legacy_name with
    | some row => correct_gitlab_data combined row
    | none => combined

/-- Fallback branch of the package attachment (util/parse.py:310-317):
look the legacy name up in the association pool, joining and consuming the
entry on a match. -/
def attach_packages_fallback (legacy_name : String)
    (pool : List (String × List String)) :
    Option String × List (String × List String) :=
  match lookupA pool legacy_name with
  | some pkgs => (some (String.intercalate "," pkgs), eraseA pool legacy_name)
  | none => (none, pool)

/-- Embedding of the package attachment of `consolidate_data`
(util/parse.py:306-317): try the truthy current name first, then the legacy
name; a matched pool entry is joined with commas and deleted from the pool
in the same step. -/
def attach_packages (legacy_name : String) (repo_name : Option String)
    (pool : List (String × List String)) :
    Option String × List (String × List String) :=
  match repo_name with
  | some n =>
    if n ≠ "" then
      match lookupA pool n with
      | some pkgs => (some (String.intercalate "," pkgs), eraseA pool n)
      | none => attach_packages_fallback legacy_name pool
    else attach_packages_fallback legacy_name pool
  | none => attach_packages_fallback legacy_name pool

/-- One iteration of the `consolidate_data` loop (util/parse.py:271-325)
for a single original row: merge the Gitlab-import columns, apply the
mirror-repair branch, attach packages, and return the emitted record with
the updated pool. -/
def consolidate_row (row : RepoMeta)
    (gitlab_import : List (String × GitlabRow))
    (mirrored : List (String × MirrorRow))
    (pool : List (String × List String)) :
    Combined × List (String × List String) :=
  let combined0 : Combined :=
    { id := row.id, full_name := row.full_name, renamed_to := row.renamed_to,
      not_found := row.not_found, clone_project_name := none,
      clone_project_id := none, clone_project_path := none,
      clone_status := none, packages := none }
  let combined1 :=
    match lookupA gitlab_import row.id with
    | none => combined0
    | some g =>
      { combined0 with
          clone_project_name := some g.clone_project_name
          clone_project_id := some g.clone_project_id
          clone_status := some g.clone_status
          clone_project_path := some (basename g.clone_project_url) }
  let names := get_latest_repo_name row
  let combined2 := apply_mirror_step combined1 names.1 names.2 mirrored
  let attached := attach_packages names.1 names.2 pool
  ({ combined2 with packages := attached.1 }, attached.2)

/-- Embedding of `consolidate_data` (util/parse.py:225): fold the original
rows in order, threading the association pool, and collect the emitted
records together with the final pool (whose leftovers are only logged). -/
def consolidate_data (original : List RepoMeta)
    (gitlab_import : List (String × GitlabRow))
    (mirrored : List (String × MirrorRow))
    (pool : List (String × List String)) :
    List Combined × List (String × List String) :=
  match original with
  | [] => ([], pool)
  | row :: rest =>
    let step := consolidate_row row gitlab_import mirrored pool
    let tail := consolidate_data rest gitlab_import mirrored step.2
    (step.1 :: tail.1, tail.2)

/-! ### `invert_mapping` and `find_paths` -/

/-- Python `set.add` on a set modelled as a duplicate-free list: insertion
appends when the element is absent. -/
def setAdd (s : List String) (x : String) : List String :=
  if x ∈ s then s else s ++ [x]

/-- `result.setdefault(repo, set()).add(package)` (util/parse.py:78) on the
association-list model of the result dict. -/
def setdefaultAdd : List (String × List String) → String → String →
    List (String × List String)
  | [], repo, package => [(repo, [package])]
  | (k, v) :: rest, repo, package =>
    if k = repo then (k, setAdd v package) :: rest
    else (k, v) :: setdefaultAdd rest repo package

/-- Embedding of `invert_mapping` (util/parse.py:66): turn a mapping from
package names to repository lists into a mapping from repository names to
package sets. -/
def invert_mapping (packages : List (String × List String)) :
    List (String × List String) :=
  packages.foldl
    (fun result entry =>
      entry.2.foldl (fun result repo => setdefaultAdd result repo entry.1)
        result)
    []

/-- Packages stored under a repository key (`∅` when the key is absent). -/
def mappingAt (m : List (String × List String)) (k : String) : List String :=
  (lookupA m k).getD []

/-- Python `sorted` on a list of strings.  For a total order with
substitutive equality the sorted output is unique, so stable insertion sort
is a faithful embedding of `sorted`. -/
def pySortedInsert (a : String) : List String → List String
  | [] => [a]
  | b :: bs => if pyStrLe a b then a :: b :: bs else b :: pySortedInsert a bs

/-- Python `sorted` over string lists. -/
def pySorted : List String → List String
  | [] => []
  | a :: as => pySortedInsert a (pySorted as)

/-- Keys of `itertools.groupby`: one representative per run of equal
adjacent elements. -/
def groupbyKeys : List String → List String
  | [] => []
  | [a] => [a]
  | a :: b :: rest =>
    if a = b then groupbyKeys (b :: rest) else a :: groupbyKeys (b :: rest)

/-- Embedding of `find_paths` (subcommands/store_in_neo4j.py:394) applied to
the grep matches: project each `(line, path)` match to its path, sort, and
keep one representative per group of equal adjacent paths. -/
def find_paths (search_results : List (Nat × String)) : List String :=
  groupbyKeys (pySorted (search_results.map Prod.snd))

/-! ### Graph Loader (`subcommands/store_in_neo4j.py`)

The Neo4j database is modelled as an explicit state: node identity sets for
each label (commits keyed by hash, contributors keyed by email, as in the
source's `MERGE` clauses), created repository/branch/tag nodes, and a list
of labelled edges.  Node property payloads (`commit_details`,
`format_repository_data`, ...) are carried in the input records but are not
replayed onto the graph state, since every claim about this module concerns
which nodes and relationships exist, not their property values. -/

/-- One commit as returned by the forge API (`project.commits.list`). -/
structure CommitData where
  id : String
  author_email : String
  committer_email : String
  parent_ids : List String
deriving DecidableEq

/-- An endpoint of a graph relationship. -/
inductive NodeRef where
  | commit (hash : String)
  | contributor (email : String)
  | repo (nodeId : Nat)
  | app (package : String)
  | branchNode (name : String) (repoNodeId : Nat)
  | tagNode (name : String) (repoNodeId : Nat)
deriving DecidableEq

/-- A labelled relationship. -/
structure GraphEdge where
  label : String
  src : NodeRef
  dst : NodeRef
deriving DecidableEq

/-- The graph database state. -/
structure Graph where
  commitHashes : List String
  contributorEmails : List String
  repoNodes : List (Nat × String)
  branchNodes : List (String × Nat)
  tagNodes : List (String × Nat)
  edges : List GraphEdge
  nextId : Nat
deriving DecidableEq

/-- The empty database. -/
def Graph.empty : Graph :=
  { commitHashes := [], contributorEmails := [], repoNodes := [],
    branchNodes := [], tagNodes := [], edges := [], nextId := 0 }

/-- `MERGE (:Commit {hash: ...})`: create the node unless it exists. -/
def mergeCommitNode (g : Graph) (hash : String) : Graph :=
  if hash ∈ g.commitHashes then g
  else { g with commitHashes := g.commitHashes ++ [hash] }

/-- `MERGE (:Contributor {email: ...})`: create the node unless it exists. -/
def mergeContributorNode (g : Graph) (email : String) : Graph :=
  if email ∈ g.contributorEmails then g
  else { g with contributorEmails := g.contributorEmails ++ [email] }

/-- The single query of the `add_commit_nodes` loop body
(store_in_neo4j.py:342-356): merge the commit by hash and both contributors
by email, then create the `BELONGS_TO`, `AUTHORS` and `COMMITS`
relationships for the repository node `repo_id`. -/
def runCommitQuery (g : Graph) (c : CommitData) (repo_id : Nat) : Graph :=
  let g1 := mergeCommitNode g c.id
  let g2 := mergeContributorNode g1 c.author_email
  let g3 := mergeContributorNode g2 c.committer_email
  { g3 with
      edges := g3.edges ++
        [{ label := "BELONGS_TO", src := .commit c.id, dst := .repo repo_id },
         { label := "AUTHORS", src := .contributor c.author_email,
           dst := .commit c.id },
         { label := "COMMITS", src := .contributor c.committer_email,
           dst := .commit c.id }] }

/-- The parent loop of `add_commit_nodes` (store_in_neo4j.py:358-359): one
`MERGE (:Commit {hash: {parent}})` query per parent id, and nothing else. -/
def mergeParentStubs (g : Graph) (parents : List String) : Graph :=
  parents.foldl mergeCommitNode g

/-- Embedding of `add_commit_nodes` (store_in_neo4j.py:302): process the
commits in listing order; for each, run the main query and then merge a stub
node for every parent id. -/
def add_commit_nodes (commits : List CommitData) (repo_node_id : Nat)
    (g : Graph) : Graph :=
  commits.foldl
    (fun g c => mergeParentStubs (runCommitQuery g c repo_node_id) c.parent_ids)
    g

/-- One branch from the forge API: name and the commit hash it points to. -/
structure BranchData where
  name : String
  commit_hash : String
deriving DecidableEq

/-- One tag from the forge API: name and the commit hash it points to. -/
structure TagData where
  name : String
  commit_hash : String
deriving DecidableEq

/-- Embedding of `add_branche_nodes` (store_in_neo4j.py:269): per branch,
merge the pointed-to commit node and create a `:Branch` node linked to the
repository with `BELONGS_TO`. -/
def add_branche_nodes (branches : List BranchData) (repo_node_id : Nat)
    (g : Graph) : Graph :=
  branches.foldl
    (fun g b =>
      let g1 := mergeCommitNode g b.commit_hash
      { g1 with
          branchNodes := g1.branchNodes ++ [(b.name, repo_node_id)]
          edges := g1.edges ++
            [{ label := "BELONGS_TO", src := .branchNode b.name repo_node_id,
               dst := .repo repo_node_id }] })
    g

/-- Embedding of `add_tag_nodes` (store_in_neo4j.py:236): per tag, merge the
pointed-to commit node and create a `:Tag` node linked to the repository
with `BELONGS_TO`. -/
def add_tag_nodes (tags : List TagData) (repo_node_id : Nat) (g : Graph) :
    Graph :=
  tags.foldl
    (fun g t =>
      let g1 := mergeCommitNode g t.commit_hash
      { g1 with
          tagNodes := g1.tagNodes ++ [(t.name, repo_node_id)]
          edges := g1.edges ++
            [{ label := "BELONGS_TO", src := .tagNode t.name repo_node_id,
               dst := .repo repo_node_id }] })
    g

/-- A row of the repository-list CSV, restricted to the columns
`add_repository_info` and its callees read. -/
structure CsvRepoRow where
  full_name : String
  renamed_to : String
  not_found : String
  name : String
  clone_status : String
  clone_project_id : String
  clone_project_name : String
deriving DecidableEq

/-- Name resolution of `find_package_names` reuses `get_latest_repo_name`
(store_in_neo4j.py:197 duplicates util/parse.py:205 verbatim). -/
def repoMetaOfCsv (row : CsvRepoRow) : RepoMeta :=
  { id := "", full_name := row.full_name, renamed_to := row.renamed_to,
    not_found := row.not_found }

/-- Embedding of `find_package_names` (store_in_neo4j.py:217):
`packages.get(latest_repo_name, packages.get(original_repo_name))`; the
association pool is read, never consumed. -/
def find_package_names (row : CsvRepoRow)
    (packages : List (String × List String)) : Option (List String) :=
  let names := get_latest_repo_name (repoMetaOfCsv row)
  match names.2 with
  | none => lookupA packages names.1
  | some latest =>
    match lookupA packages latest with
    | some v => some v
    | none => lookupA packages names.1

/-- Embedding of `add_repository_node` (store_in_neo4j.py:163): create a
fresh `:GitHubRepository` node (properties per `format_repository_data`,
name `renamed_to or name`) with one `IMPLEMENTED_BY` edge fanned in from
every matched `:App` node, in a single write.  Returns the new node's id.
`find_package_names` may return `None`; the Cypher `IN` then matches no
apps, so the node is created without edges. -/
def add_repository_node (row : CsvRepoRow)
    (package_names : Option (List String)) (g : Graph) : Graph × Nat :=
  let nid := g.nextId
  let rname := if row.renamed_to ≠ "" then row.renamed_to else row.name
  let pkgs := package_names.getD []
  ({ g with
      repoNodes := g.repoNodes ++ [(nid, rname)]
      edges := g.edges ++ pkgs.map
        (fun p => { label := "IMPLEMENTED_BY", src := .app p,
                    dst := .repo nid })
      nextId := nid + 1 }, nid)

/-- Per-project data served by the forge API and the bare git mirror for one
repository: creation date, default branch, the paginated listings, and the
content-grep primitive `grep(pattern, ref, pathspec)` of `BareGit`. -/
structure ProjectData where
  created_at : String
  default_branch : String
  commits : List CommitData
  branches : List BranchData
  tags : List TagData
  grep : String → String → String → List (Nat × String)

/-- The environment of `add_repository_info`: the Gitlab project lookup
(`gitlab.projects.get`) as a total map from clone project ids. -/
structure LoaderEnv where
  projects : Nat → ProjectData

/-- A found-paths property attached to an `IMPLEMENTED_BY` edge:
(package, repository node id, property name, path list). -/
structure ImplProp where
  package : String
  repoNodeId : Nat
  prop : String
  paths : List String
deriving DecidableEq

/-- Embedding of `add_manifest_path`, `add_gradle_config_path` and
`add_maven_config_path` (store_in_neo4j.py:414-486) for one package: run
the three greps over the project's default branch and emit one edge
property per non-empty result. -/
def implPropsForPackage (project : ProjectData) (repo_node_id : Nat)
    (package : String) : List ImplProp :=
  let manifest := find_paths
    (project.grep ("package=\x22" ++ package ++ "\x22")
      project.default_branch "*AndroidManifest.xml")
  let gradle := find_paths
    (project.grep ("applicationId *." ++ package ++ ".")
      project.default_branch "*build.gradle")
  let maven := find_paths
    (project.grep ("<groupId>" ++ package ++ "<\\/groupId>")
      project.default_branch "*pom.xml")
  (if manifest ≠ [] then
    [{ package := package, repoNodeId := repo_node_id,
       prop := "manifestPaths", paths := manifest }] else []) ++
  (if gradle ≠ [] then
    [{ package := package, repoNodeId := repo_node_id,
       prop := "gradleConfigPaths", paths := gradle }] else []) ++
  (if maven ≠ [] then
    [{ package := package, repoNodeId := repo_node_id,
       prop := "mavenConfigPaths", paths := maven }] else [])

/-- Embedding of `add_implementation_properties` (store_in_neo4j.py:489):
the edge properties added for all packages of one repository. -/
def add_implementation_properties (project : ProjectData)
    (repo_node_id : Nat) (packages : Option (List String)) :
    List ImplProp :=
  (packages.getD []).flatMap (implPropsForPackage project repo_node_id)

/-- Embedding of `add_repository_info` (store_in_neo4j.py:523): iterate the
CSV rows; a row whose `clone_status` is not exactly `Success` is skipped
with a logged warning, any other row creates the repository node and its
commit/branch/tag nodes and edge properties.  Returns the final graph and
the accumulated edge properties. -/
def add_repository_info (env : LoaderEnv) (rows : List CsvRepoRow)
    (packages_by_repo : List (String × List String)) (g : Graph)
    (props : List ImplProp) : Graph × List ImplProp :=
  match rows with
  | [] => (g, props)
  | row :: rest =>
    if row.clone_status ≠ "Success" then
      add_repository_info env rest packages_by_repo g props
    else
      let packages := find_package_names row packages_by_repo
      let project := env.projects (row.clone_project_id.toNat?.getD 0)
      let created := add_repository_node row packages g
      let g2 := add_commit_nodes project.commits created.2 created.1
      let g3 := add_branche_nodes project.branches created.2 g2
      let g4 := add_tag_nodes project.tags created.2 g3
      let newProps := add_implementation_properties project created.2 packages
      add_repository_info env rest packages_by_repo g4 (props ++ newProps)

/-! ### Fork-edge second pass -/

/-- Modelled from the spec: the `FORKS`-edge second pass of the graph loader
is not among the files under src/ (src/subcommands/store_in_neo4j.py stores
`parentId`/`sourceId` as node properties but contains no `FORKS` query).
Per spec section 4.3, a second pass runs once after all repository nodes of
a batch are loaded and adds a `FORKS` edge between repository nodes whose
recorded parent or source id matches another repository node's id.
A repository node of that pass: its own forge id and the recorded
parent/source forge ids. -/
structure ForkRepoNode where
  repoId : Nat
  parentId : Option Nat
  sourceId : Option Nat
deriving DecidableEq

/-- Modelled from the spec: phase one of the two-pass batch load creates one
repository node per row, in row order, regardless of whether referenced
parents exist yet. -/
def create_repo_nodes (rows : List ForkRepoNode) : List ForkRepoNode :=
  rows.foldl (fun acc r => acc ++ [r]) []

/-- Modelled from the spec: the fork-edge pass itself, computed once over
the complete node list — an edge `(a, b)` for every ordered pair of distinct
nodes where `a`'s recorded parent or source id equals `b`'s id. -/
def fork_edges (nodes : List ForkRepoNode) : List (Nat × Nat) :=
  nodes.flatMap
    (fun a =>
      nodes.filterMap
        (fun b =>
          if (a.parentId = some b.repoId ∨ a.sourceId = some b.repoId) ∧
              a.repoId ≠ b.repoId then
            some (a.repoId, b.repoId)
          else none))

/-- Modelled from the spec: the full two-phase batch load — create every
repository node, then run the fork-edge pass exactly once. -/
def load_repo_batch (rows : List ForkRepoNode) :
    List ForkRepoNode × List (Nat × Nat) :=
  let nodes := create_repo_nodes rows
  (nodes, fork_edges nodes)

/-! ### Supporting lemmas -/

theorem lookupA_setA_self {α : Type} (d : List (String × α)) (k : String)
    (v : α) : lookupA (setA d k v) k = some v := by
  induction d with
  | nil => simp [setA, lookupA]
  | cons e rest ih =>
    obtain ⟨k1, w⟩ := e
    by_cases h : k1 = k
    · simp [setA, h, lookupA]
    · simp [setA, h, lookupA, ih]

theorem lookupA_eraseA_self {α : Type} (d : List (String × α)) (k : String) :
    lookupA (eraseA d k) k = none := by
  induction d with
  | nil => simp [eraseA, lookupA]
  | cons e rest ih =>
    obtain ⟨k1, w⟩ := e
    by_cases h : k1 = k
    · simpa [eraseA, h] using ih
    · simpa [eraseA, h, lookupA] using ih

theorem strLeB_total : ∀ as bs : List Char,
    strLeB as bs = true ∨ strLeB bs as = true
  | [], bs => Or.inl rfl
  | _ :: _, [] => Or.inr rfl
  | a :: as, b :: bs => by
    rcases lt_trichotomy a b with h | h | h
    · left; simp [strLeB, h]
    · subst h
      rcases strLeB_total as bs with ih | ih
      · left; simp [strLeB, ih, lt_irrefl]
      · right; simp [strLeB, ih, lt_irrefl]
    · right; simp [strLeB, h]

theorem pyStrLe_total (a b : String) :
    pyStrLe a b = true ∨ pyStrLe b a = true :=
  strLeB_total a.data b.data

theorem pySortedInsert_head (a : String) (l : List String) (y : String)
    (h : (pySortedInsert a l).head? = some y) :
    y = a ∨ l.head? = some y := by
  cases l with
  | nil => simp [pySortedInsert] at h; exact Or.inl h.symm
  | cons b bs =>
    by_cases hab : pyStrLe a b = true
    · simp [pySortedInsert, hab] at h; exact Or.inl h.symm
    · simp [pySortedInsert, hab] at h; exact Or.inr (by simp [h])

theorem pySortedInsert_chain (a : String) : ∀ l : List String,
    l.Chain' (fun x y => pyStrLe x y = true) →
    (pySortedInsert a l).Chain' (fun x y => pyStrLe x y = true)
  | [], _ => by simp [pySortedInsert]
  | b :: bs, h => by
    by_cases hab : pyStrLe a b = true
    · rw [show pySortedInsert a (b :: bs) = a :: b :: bs from by
        simp [pySortedInsert, hab]]
      exact List.chain'_cons.mpr ⟨hab, h⟩
    · have hba : pyStrLe b a = true := by
        rcases pyStrLe_total a b with hx | hx
        · exact absurd hx hab
        · exact hx
      have hbs := (List.chain'_cons'.mp h).2
      have ih := pySortedInsert_chain a bs hbs
      simp only [pySortedInsert, hab, if_neg, Bool.false_eq_true,
        not_false_iff, ite_false]
      rw [List.chain'_cons']
      refine ⟨?_, ih⟩
      intro y hy
      rcases pySortedInsert_head a bs y hy with rfl | hh
      · exact hba
      · exact (List.chain'_cons'.mp h).1 y hh

theorem pySorted_chain : ∀ l : List String,
    (pySorted l).Chain' (fun x y => pyStrLe x y = true)
  | [] => by simp [pySorted]
  | a :: as => pySortedInsert_chain a (pySorted as) (pySorted_chain as)

theorem pySortedInsert_mem (a x : String) : ∀ l : List String,
    (x ∈ pySortedInsert a l ↔ x = a ∨ x ∈ l)
  | [] => by simp [pySortedInsert]
  | b :: bs => by
    by_cases hab : pyStrLe a b = true
    · simp [pySortedInsert, hab]
    · simp [pySortedInsert, hab, pySortedInsert_mem a x bs]
      tauto

theorem pySorted_mem (x : String) : ∀ l : List String,
    (x ∈ pySorted l ↔ x ∈ l)
  | [] => Iff.rfl
  | a :: as => by
    simp [pySorted, pySortedInsert_mem, pySorted_mem x as]

theorem groupbyKeys_head : ∀ (b : String) (rest : List String),
    (groupbyKeys (b :: rest)).head? = some b
  | _, [] => rfl
  | b, c :: r => by
    by_cases h : b = c
    · rw [groupbyKeys, if_pos h, groupbyKeys_head c r, h]
    · rw [groupbyKeys, if_neg h]; rfl

theorem groupbyKeys_mem : ∀ (l : List String) (x : String),
    x ∈ groupbyKeys l ↔ x ∈ l
  | [], x => by simp [groupbyKeys]
  | [_], x => by simp [groupbyKeys]
  | a :: b :: rest, x => by
    have ih := groupbyKeys_mem (b :: rest) x
    by_cases h : a = b
    · subst h
      rw [groupbyKeys, if_pos rfl, ih]
      simp [List.mem_cons]
    · rw [groupbyKeys, if_neg h]
      simp only [List.mem_cons] at ih ⊢
      rw [ih]

theorem groupbyKeys_chain : ∀ l : List String,
    l.Chain' (fun x y => pyStrLe x y = true) →
    (groupbyKeys l).Chain' (fun x y => pyStrLe x y = true ∧ x ≠ y)
  | [] => fun _ => by simp [groupbyKeys]
  | [_] => fun _ => by simp [groupbyKeys]
  | a :: b :: rest => fun h => by
    have hab : pyStrLe a b = true := (List.chain'_cons.mp h).1
    have ht := (List.chain'_cons.mp h).2
    have ih := groupbyKeys_chain (b :: rest) ht
    by_cases hEq : a = b
    · rw [groupbyKeys, if_pos hEq]; exact ih
    · rw [groupbyKeys, if_neg hEq, List.chain'_cons']
      refine ⟨?_, ih⟩
      intro y hy
      rw [groupbyKeys_head b rest, Option.mem_def, Option.some_inj] at hy
      subst hy
      exact ⟨hab, hEq⟩

theorem setAdd_mem (s : List String) (x y : String) :
    x ∈ setAdd s y ↔ x ∈ s ∨ x = y := by
  by_cases h : y ∈ s
  · simp only [setAdd, if_pos h]
    constructor
    · exact Or.inl
    · rintro (hx | rfl)
      · exact hx
      · exact h
  · simp [setAdd, if_neg h]

theorem mappingAt_setdefaultAdd (p r repo package : String) :
    ∀ res : List (String × List String),
    (p ∈ mappingAt (setdefaultAdd res repo package) r ↔
      p ∈ mappingAt res r ∨ (r = repo ∧ p = package))
  | [] => by
    by_cases h : repo = r
    · simp [setdefaultAdd, mappingAt, lookupA, if_pos h, h.symm]
    · have h2 : ¬ r = repo := fun hr => h hr.symm
      simp [setdefaultAdd, mappingAt, lookupA, if_neg h, h2]
  | (k, v) :: rest => by
    by_cases hk : k = repo
    · by_cases hr : k = r
      · have hrr : r = repo := hr.symm.trans hk
        simp [setdefaultAdd, mappingAt, lookupA, if_pos hk, if_pos hr,
          setAdd_mem, hrr]
      · have h2 : ¬ r = repo := fun h => hr (hk.symm ▸ h.symm)
        simp [setdefaultAdd, mappingAt, lookupA, if_pos hk, if_neg hr, h2]
    · by_cases hr : k = r
      · have h2 : ¬ r = repo := fun h => hk (hr.trans h)
        simp [setdefaultAdd, mappingAt, lookupA, if_neg hk, if_pos hr, h2]
      · have ih := mappingAt_setdefaultAdd p r repo package rest
        simp only [setdefaultAdd, if_neg hk, mappingAt, lookupA, if_neg hr]
        exact ih

theorem mappingAt_innerFold (p r package : String) :
    ∀ (repos : List String) (res : List (String × List String)),
    (p ∈ mappingAt
        (repos.foldl (fun res repo => setdefaultAdd res repo package) res) r ↔
      p ∈ mappingAt res r ∨ (r ∈ repos ∧ p = package))
  | [], res => by simp
  | repo :: rs, res => by
    have ih := mappingAt_innerFold p r package rs
      (setdefaultAdd res repo package)
    simp only [List.foldl_cons, List.mem_cons]
    rw [ih, mappingAt_setdefaultAdd]
    constructor
    · rintro ((h | ⟨rfl, rfl⟩) | ⟨hm, rfl⟩)
      · exact Or.inl h
      · exact Or.inr ⟨Or.inl rfl, rfl⟩
      · exact Or.inr ⟨Or.inr hm, rfl⟩
    · rintro (h | ⟨hm | hm, rfl⟩)
      · exact Or.inl (Or.inl h)
      · exact Or.inl (Or.inr ⟨hm.symm ▸ rfl, rfl⟩)
      · exact Or.inr ⟨hm, rfl⟩

theorem mappingAt_outerFold (p r : String) :
    ∀ (m : List (String × List String)) (res : List (String × List String)),
    (p ∈ mappingAt
        (m.foldl
          (fun result entry =>
            entry.2.foldl
              (fun result repo => setdefaultAdd result repo entry.1) result)
          res) r ↔
      p ∈ mappingAt res r ∨ ∃ e ∈ m, e.1 = p ∧ r ∈ e.2)
  | [], res => by simp
  | e :: rest, res => by
    have ih := mappingAt_outerFold p r rest
      (e.2.foldl (fun result repo => setdefaultAdd result repo e.1) res)
    simp only [List.foldl_cons]
    rw [ih, mappingAt_innerFold]
    constructor
    · rintro ((h | ⟨hm, rfl⟩) | ⟨f, hf, hfp, hfr⟩)
      · exact Or.inl h
      · exact Or.inr ⟨e, List.mem_cons_self e rest, rfl, hm⟩
      · exact Or.inr ⟨f, List.mem_cons_of_mem e hf, hfp, hfr⟩
    · rintro (h | ⟨f, hf, hfp, hfr⟩)
      · exact Or.inl (Or.inl h)
      · rcases List.mem_cons.mp hf with rfl | hf2
        · exact Or.inl (Or.inr ⟨hfr, hfp.symm⟩)
        · exact Or.inr ⟨f, hf2, hfp, hfr⟩

theorem mappingAt_nodup_mem (r p : String) :
    ∀ m : List (String × List String), (m.map Prod.fst).Nodup →
    (r ∈ mappingAt m p ↔ ∃ e ∈ m, e.1 = p ∧ r ∈ e.2)
  | [], _ => by simp [mappingAt, lookupA]
  | (k, v) :: rest, h => by
    have h' : k ∉ rest.map Prod.fst ∧ (rest.map Prod.fst).Nodup := by
      rw [List.map_cons, List.nodup_cons] at h
      exact h
    have ih := mappingAt_nodup_mem r p rest h'.2
    by_cases hkp : k = p
    · simp only [mappingAt, lookupA, if_pos hkp, Option.getD_some]
      constructor
      · intro hr
        exact ⟨(k, v), List.mem_cons_self (k, v) rest, hkp, hr⟩
      · rintro ⟨f, hf, hfp, hfr⟩
        rcases List.mem_cons.mp hf with hfe | hfe
        · rw [hfe] at hfr
          exact hfr
        · exfalso
          apply h'.1
          rw [← hkp] at hfp
          exact hfp ▸ List.mem_map_of_mem Prod.fst hfe
    · simp only [mappingAt, lookupA, if_neg hkp]
      rw [show (lookupA rest p).getD [] = mappingAt rest p from rfl, ih]
      constructor
      · rintro ⟨f, hf, hfp, hfr⟩
        exact ⟨f, List.mem_cons_of_mem (k, v) hf, hfp, hfr⟩
      · rintro ⟨f, hf, hfp, hfr⟩
        rcases List.mem_cons.mp hf with hfe | hfe
        · exfalso
          apply hkp
          rw [hfe] at hfp
          exact hfp
        · exact ⟨f, hfe, hfp, hfr⟩

/-! ### Claim theorems -/

/-- C4: for every repository metadata row, `get_latest_repo_name` resolves
the current name as `renamed_to` when non-empty, otherwise `full_name` when
`not_found` is not the string `TRUE`, otherwise `none`; the first component
is always the original `full_name`. -/
theorem claim_get_latest_repo_name (md : RepoMeta) :
    (get_latest_repo_name md).1 = md.full_name ∧
    (md.renamed_to ≠ "" →
      get_latest_repo_name md = (md.full_name, some md.renamed_to)) ∧
    (md.renamed_to = "" → md.not_found ≠ "TRUE" →
      get_latest_repo_name md = (md.full_name, some md.full_name)) ∧
    (md.renamed_to = "" → md.not_found = "TRUE" →
      get_latest_repo_name md = (md.full_name, none)) := by
  refine ⟨?_, ?_, ?_, ?_⟩
  · simp only [get_latest_repo_name]
    split_ifs <;> rfl
  · intro h
    simp [get_latest_repo_name, h]
  · intro h1 h2
    simp [get_latest_repo_name, h1, h2]
  · intro h1 h2
    simp [get_latest_repo_name, h1, h2]

/-- C4 witness: the three branches evaluated at concrete rows. -/
theorem claim_get_latest_repo_name_witness :
    get_latest_repo_name ⟨"1", "owner/old", "owner/new", ""⟩ =
      ("owner/old", some "owner/new") ∧
    get_latest_repo_name ⟨"2", "owner/kept", "", ""⟩ =
      ("owner/kept", some "owner/kept") ∧
    get_latest_repo_name ⟨"3", "owner/gone", "", "TRUE"⟩ =
      ("owner/gone", none) :=
  ⟨(claim_get_latest_repo_name ⟨"1", "owner/old", "owner/new", ""⟩).2.1
      (by decide),
   (claim_get_latest_repo_name ⟨"2", "owner/kept", "", ""⟩).2.2.1
      (by decide) (by decide),
   (claim_get_latest_repo_name ⟨"3", "owner/gone", "", "TRUE"⟩).2.2.2
      (by decide) (by decide)⟩

/-- C5: `find_paths` returns exactly the matched paths, sorted by path with
adjacent duplicates removed (each adjacent pair strictly increases in the
embedded Python string order), and on the matches
`[(1, a/b.xml), (5, a/b.xml), (2, c/d.xml)]` it returns
`[a/b.xml, c/d.xml]`. -/
theorem claim_find_paths (search_results : List (Nat × String)) :
    (∀ p, p ∈ find_paths search_results ↔
      p ∈ search_results.map Prod.snd) ∧
    (find_paths search_results).Chain'
      (fun x y => pyStrLe x y = true ∧ x ≠ y) ∧
    find_paths [(1, "a/b.xml"), (5, "a/b.xml"), (2, "c/d.xml")] =
      ["a/b.xml", "c/d.xml"] := by
  refine ⟨?_, ?_, by decide⟩
  · intro p
    rw [find_paths, groupbyKeys_mem, pySorted_mem]
  · exact groupbyKeys_chain _ (pySorted_chain _)

/-- C10: a package belongs to `invert_mapping m` under repository `r` if and
only if `r` occurs in the package's repository list in `m` (keys of the
Python dict `m` are distinct); every pair of the input is preserved and none
is invented. -/
theorem claim_invert_mapping (m : List (String × List String))
    (h : (m.map Prod.fst).Nodup) (p r : String) :
    p ∈ mappingAt (invert_mapping m) r ↔ r ∈ mappingAt m p := by
  rw [invert_mapping, mappingAt_outerFold, mappingAt_nodup_mem r p m h]
  simp [mappingAt, lookupA]

/-- C10 witness: the inversion of a concrete two-package mapping. -/
theorem claim_invert_mapping_witness :
    ("pkg.a" ∈ mappingAt
        (invert_mapping
          [("pkg.a", ["owner/r1", "owner/r2"]), ("pkg.b", ["owner/r2"])])
        "owner/r2" ↔
      "owner/r2" ∈ mappingAt
        [("pkg.a", ["owner/r1", "owner/r2"]), ("pkg.b", ["owner/r2"])]
        "pkg.a") ∧
    "pkg.a" ∈ mappingAt
      (invert_mapping
        [("pkg.a", ["owner/r1", "owner/r2"]), ("pkg.b", ["owner/r2"])])
      "owner/r2" :=
  ⟨claim_invert_mapping
      [("pkg.a", ["owner/r1", "owner/r2"]), ("pkg.b", ["owner/r2"])]
      (by decide) "pkg.a" "owner/r2",
   by decide⟩

/-- C7: `add_commit_nodes` on a commit with a parent only merges a stub
`:Commit` node for the parent; no relationship incident to the parent is
created, although the function's docstring promises relationships to parent
commits.  Evaluated at a one-commit repository whose commit has parent
`p1`. -/
theorem claim_commit_parent_stub_only :
    let c : CommitData :=
      { id := "c1", author_email := "alice@x", committer_email := "bob@x",
        parent_ids := ["p1"] }
    let g := add_commit_nodes [c] 7 Graph.empty
    "p1" ∈ g.commitHashes ∧
    g.edges =
      [{ label := "BELONGS_TO", src := .commit "c1", dst := .repo 7 },
       { label := "AUTHORS", src := .contributor "alice@x",
         dst := .commit "c1" },
       { label := "COMMITS", src := .contributor "bob@x",
         dst := .commit "c1" }] ∧
    (∀ e ∈ g.edges,
      e.src ≠ NodeRef.commit "p1" ∧ e.dst ≠ NodeRef.commit "p1") := by
  decide

/-- C8: in the two-phase batch load modelled from the spec, a repository
row processed before the row its parent id refers to still receives its
`FORKS` edge, because the fork-edge pass runs once over the complete node
list. -/
theorem claim_fork_edges_deferred (a b : ForkRepoNode)
    (pre mid post : List ForkRepoNode)
    (hpar : a.parentId = some b.repoId ∨ a.sourceId = some b.repoId)
    (hne : a.repoId ≠ b.repoId) :
    (a.repoId, b.repoId) ∈
      (load_repo_batch (pre ++ a :: (mid ++ b :: post))).2 := by
  have hnodes : create_repo_nodes (pre ++ a :: (mid ++ b :: post)) =
      pre ++ a :: (mid ++ b :: post) := by
    have haux : ∀ (l acc : List ForkRepoNode),
        l.foldl (fun acc r => acc ++ [r]) acc = acc ++ l := by
      intro l
      induction l with
      | nil => intro acc; simp
      | cons x xs ih => intro acc; simp [ih]
    rw [create_repo_nodes, haux]
    simp
  have ha : a ∈ pre ++ a :: (mid ++ b :: post) := by simp
  have hb : b ∈ pre ++ a :: (mid ++ b :: post) := by simp
  simp only [load_repo_batch, hnodes, fork_edges, List.mem_flatMap,
    List.mem_filterMap]
  exact ⟨a, ha, b, hb, by simp [hpar, hne]⟩

/-- C8 witness: repository 1 (parent id 2) loaded before repository 2
still gets the edge 1 → 2. -/
theorem claim_fork_edges_deferred_witness :
    (1, 2) ∈ (load_repo_batch
      [⟨1, some 2, none⟩, ⟨2, none, none⟩]).2 :=
  claim_fork_edges_deferred ⟨1, some 2, none⟩ ⟨2, none, none⟩ [] [] []
    (Or.inl rfl) (by decide)

/-- C9: a repository CSV row whose `clone_status` is not exactly `Success`
contributes nothing to the graph or the edge properties: running
`add_repository_info` with the row spliced in anywhere equals running it
without the row, so the row is skipped and the remaining rows are still
processed. -/
theorem claim_skip_unsuccessful_clone (env : LoaderEnv)
    (pre post : List CsvRepoRow) (row : CsvRepoRow)
    (packages_by_repo : List (String × List String)) (g : Graph)
    (props : List ImplProp) (h : row.clone_status ≠ "Success") :
    add_repository_info env (pre ++ row :: post) packages_by_repo g props =
      add_repository_info env (pre ++ post) packages_by_repo g props := by
  induction pre generalizing g props with
  | nil => simp [add_repository_info, h]
  | cons r rest ih =>
    by_cases hr : r.clone_status ≠ "Success"
    · simp only [List.cons_append, add_repository_info, if_pos hr]
      exact ih g props
    · simp only [List.cons_append, add_repository_info, if_neg hr]
      exact ih _ _

/-- C9 witness: a failed-clone row between two empty lists is a no-op on
the empty graph. -/
theorem claim_skip_unsuccessful_clone_witness :
    add_repository_info
      ⟨fun _ =>
        { created_at := "", default_branch := "master", commits := [],
          branches := [], tags := [], grep := fun _ _ _ => [] }⟩
      [{ full_name := "owner/repo", renamed_to := "", not_found := "",
         name := "repo", clone_status := "Failed: [Errno 28]",
         clone_project_id := "", clone_project_name := "" }]
      [] Graph.empty [] =
    add_repository_info
      ⟨fun _ =>
        { created_at := "", default_branch := "master", commits := [],
          branches := [], tags := [], grep := fun _ _ _ => [] }⟩
      [] [] Graph.empty [] :=
  claim_skip_unsuccessful_clone
    ⟨fun _ =>
      { created_at := "", default_branch := "master", commits := [],
        branches := [], tags := [], grep := fun _ _ _ => [] }⟩
    [] []
    { full_name := "owner/repo", renamed_to := "", not_found := "",
      name := "repo", clone_status := "Failed: [Errno 28]",
      clone_project_id := "", clone_project_name := "" }
    [] Graph.empty [] (by decide)

/-- C1: evaluation of `consolidate_data` at a row whose resolved current
name (`new/name`, from `renamed_to`) is the key of a mirror-repair row
while its original name is not.  The guard at util/parse.py:301 reads
`if not repo_name and repo_name in mirrored_repos`, so the truthy current
name never reaches the mirror lookup and the emitted record keeps the
failed clone status and the Gitlab-import clone id instead of the repair
row's values. -/
theorem claim_mirror_current_name_ignored :
    let row : RepoMeta :=
      { id := "1", full_name := "old/name", renamed_to := "new/name",
        not_found := "" }
    let gl : GitlabRow :=
      { full_name := "old/name", renamed_to := "new/name", not_found := "",
        clone_project_name := "orig-clone", clone_project_id := "42",
        clone_status := "Failed", clone_project_url :=
          "http://gitlab/x/old-name.git" }
    let mir : MirrorRow :=
      { clone_project_name := "mirror-clone", clone_project_id := "99",
        clone_project_path := "mirror/path" }
    let out := consolidate_data [row] [("1", gl)] [("new/name", mir)] []
    get_latest_repo_name row = ("old/name", some "new/name") ∧
    lookupA [("new/name", mir)] "new/name" = some mir ∧
    out.1.map Combined.clone_status = [some "Failed"] ∧
    out.1.map Combined.clone_project_id = [some "42"] ∧
    out.1.map Combined.clone_project_name = [some "orig-clone"] := by
  decide

theorem attach_packages_pool_sublist (legacy : String)
    (repo_name : Option String) (pool : List (String × List String)) :
    (attach_packages legacy repo_name pool).2.Sublist pool := by
  have hfb : (attach_packages_fallback legacy pool).2.Sublist pool := by
    unfold attach_packages_fallback
    cases lookupA pool legacy <;> simp [eraseA, List.filter_sublist]
  unfold attach_packages
  cases repo_name with
  | none => exact hfb
  | some n =>
    by_cases hn : n ≠ ""
    · simp only [if_pos hn]
      cases lookupA pool n <;>
        simp [eraseA, List.filter_sublist, hfb]
    · simp only [if_neg hn]
      exact hfb

/-- C3: the package attachment of `consolidate_data` tries the truthy
current name first and consumes the matched pool entry in the same step
(the key is gone from the resulting pool); when the current name misses,
the legacy name is tried and consumed likewise; the pool only ever
shrinks across a whole run; and the concrete one-row run over the pool
`{owner/repo1 ↦ {pkg.a}}` emits `packages = "pkg.a"` and ends with an
empty pool. -/
theorem claim_attach_packages_consumed :
    (∀ (pool : List (String × List String)) (legacy n : String)
        (pkgs : List String), n ≠ "" → lookupA pool n = some pkgs →
      attach_packages legacy (some n) pool =
        (some (String.intercalate "," pkgs), eraseA pool n) ∧
      lookupA (attach_packages legacy (some n) pool).2 n = none) ∧
    (∀ (pool : List (String × List String)) (legacy : String)
        (repo_name : Option String) (pkgs : List String),
      (∀ n, repo_name = some n → n ≠ "" → lookupA pool n = none) →
      lookupA pool legacy = some pkgs →
      attach_packages legacy repo_name pool =
        (some (String.intercalate "," pkgs), eraseA pool legacy) ∧
      lookupA (attach_packages legacy repo_name pool).2 legacy = none) ∧
    (∀ (original : List RepoMeta)
        (gitlab_import : List (String × GitlabRow))
        (mirrored : List (String × MirrorRow))
        (pool : List (String × List String)),
      (consolidate_data original gitlab_import mirrored pool).2.Sublist
        pool) ∧
    ((consolidate_data
        [{ id := "1", full_name := "owner/repo1", renamed_to := "",
           not_found := "" }] [] [] [("owner/repo1", ["pkg.a"])]).1.map
        Combined.packages = [some "pkg.a"] ∧
      (consolidate_data
        [{ id := "1", full_name := "owner/repo1", renamed_to := "",
           not_found := "" }] [] [] [("owner/repo1", ["pkg.a"])]).2 = []) := by
  refine ⟨?_, ?_, ?_, by decide⟩
  · intro pool legacy n pkgs hn hl
    have heq : attach_packages legacy (some n) pool =
        (some (String.intercalate "," pkgs), eraseA pool n) := by
      simp [attach_packages, hn, hl]
    exact ⟨heq, by rw [heq]; exact lookupA_eraseA_self pool n⟩
  · intro pool legacy repo_name pkgs hmiss hl
    have hfb : attach_packages_fallback legacy pool =
        (some (String.intercalate "," pkgs), eraseA pool legacy) := by
      simp [attach_packages_fallback, hl]
    have heq : attach_packages legacy repo_name pool =
        (some (String.intercalate "," pkgs), eraseA pool legacy) := by
      cases repo_name with
      | none => simpa [attach_packages] using hfb
      | some n =>
        by_cases hn : n ≠ ""
        · have := hmiss n rfl hn
          simp [attach_packages, hn, this, hfb]
        · simp [attach_packages, hn, hfb]
    exact ⟨heq, by rw [heq]; exact lookupA_eraseA_self pool legacy⟩
  · intro original gitlab_import mirrored pool
    induction original generalizing pool with
    | nil => simp [consolidate_data]
    | cons row rest ih =>
      simp only [consolidate_data]
      exact List.Sublist.trans
        (ih (consolidate_row row gitlab_import mirrored pool).2)
        (by
          simp only [consolidate_row]
          exact attach_packages_pool_sublist _ _ pool)

/-- C3 witness: the current-name branch at the concrete singleton pool. -/
theorem claim_attach_packages_consumed_witness :
    attach_packages "owner/repo1" (some "owner/repo1")
        [("owner/repo1", ["pkg.a"])] = (some "pkg.a", []) ∧
    lookupA (attach_packages "owner/repo1" (some "owner/repo1")
        [("owner/repo1", ["pkg.a"])]).2 "owner/repo1" = none := by
  have h := claim_attach_packages_consumed.1 [("owner/repo1", ["pkg.a"])]
    "owner/repo1" "owner/repo1" ["pkg.a"] (by decide) (by decide)
  exact ⟨h.1.trans (by decide), h.2⟩

/-- A details directory holding only the category file
`d/categories/p.json` with content `{"appCategory": "TOOLS"}` (mtime 5). -/
def fsCategoryOnly : PlayFS :=
  ⟨[("d/categories/p.json", ([("appCategory", Json.str "TOOLS")], 5))]⟩

/-- C2 counterexample: with only the category file present,
`parse_google_play_info` does not return the minimal record the claim
promises — it raises `KeyError: 'promotionalDescription'` while building
the record from the minimal `docId`-only meta data. -/
theorem claim_minimal_record_counterexample :
    parse_google_play_info "p" "d" fsCategoryOnly =
      Except.error "KeyError: promotionalDescription" := by
  rfl

/-- C2 (amended): `parse_google_play_info` returns the definite "no data"
result `none` when neither the primary nor the category file exists; when
only the category file exists (non-empty, carrying its `appCategory` key)
the function does not return a minimal record: it builds the minimal
`docId`-only meta data and then fails with `KeyError:
promotionalDescription` on the first unconditionally-accessed description
field, so no partially-populated record with silently defaulted required
fields is ever returned. -/
theorem claim_no_data_or_keyerror (package_name play_details_dir : String)
    (fs : PlayFS) :
    (fsFind fs (joinPath play_details_dir (package_name ++ ".json")) =
        none →
      fsFind fs (joinPath (joinPath play_details_dir "categories")
        (package_name ++ ".json")) = none →
      parse_google_play_info package_name play_details_dir fs =
        Except.ok none) ∧
    (∀ (c : JsonObj) (t : Int) (cat : Json),
      fsFind fs (joinPath play_details_dir (package_name ++ ".json")) =
        none →
      fsFind fs (joinPath (joinPath play_details_dir "categories")
        (package_name ++ ".json")) = some (c, t) →
      c.isEmpty = false → lookupA c "appCategory" = some cat →
      parse_google_play_info package_name play_details_dir fs =
        Except.error "KeyError: promotionalDescription") := by
  constructor
  · intro h1 h2
    unfold parse_google_play_info parse_json_file
    rw [h1, h2]
    rfl
  · intro c t cat h1 h2 hcne hcat
    unfold parse_google_play_info parse_json_file
    rw [h1, h2]
    simp only [List.isEmpty_nil, hcne, Bool.true_and, Bool.false_eq_true,
      if_false, ite_false]
    unfold parseOffer mergeCategory objGetE
    simp only [lookupA, hcne, hcat, ebind]
    rfl

/-- C2 witness: the empty directory yields `none`; the category-only
directory raises. -/
theorem claim_no_data_or_keyerror_witness :
    parse_google_play_info "p" "d" ⟨[]⟩ = Except.ok none ∧
    parse_google_play_info "p" "d" fsCategoryOnly =
      Except.error "KeyError: promotionalDescription" :=
  ⟨(claim_no_data_or_keyerror "p" "d" ⟨[]⟩).1 rfl rfl,
   (claim_no_data_or_keyerror "p" "d" fsCategoryOnly).2
     [("appCategory", Json.str "TOOLS")] 5 (Json.str "TOOLS")
     rfl rfl rfl rfl⟩

/-- C6: whenever both the primary file (with object contents `m`, embedded
category list `cats` under `details.appDetails.appCategory`) and the
category file (with contents `c`, category value `cat`) exist and a record
is returned, that record's category list is exactly the primary file's
categories followed by the category file's single appended entry — so it
contains every category from either file, primary-file entries first. -/
theorem claim_category_merge (package_name play_details_dir : String)
    (fs : PlayFS) (rec : GPRecord) (m : JsonObj) (tm : Int) (c : JsonObj)
    (tc : Int) (cat : Json) (cats : List Json) (d a : JsonObj)
    (hp : fsFind fs (joinPath play_details_dir (package_name ++ ".json")) =
      some (m, tm))
    (hc : fsFind fs (joinPath (joinPath play_details_dir "categories")
      (package_name ++ ".json")) = some (c, tc))
    (hm : m.isEmpty = false)
    (hcne : c.isEmpty = false)
    (hd : asObj ((lookupA m "details").getD (Json.obj [])) = Except.ok d)
    (ha : asObj ((lookupA d "appDetails").getD (Json.obj [])) = Except.ok a)
    (hcats : asArr ((lookupA a "appCategory").getD (Json.arr [])) =
      Except.ok cats)
    (hcat : lookupA c "appCategory" = some cat)
    (h : parse_google_play_info package_name play_details_dir fs =
      Except.ok (some rec)) :
    rec.appCategory = Json.arr (cats ++ [cat]) := by
  unfold parse_google_play_info parse_json_file at h
  rw [hp, hc] at h
  simp only [hm, hcne, Bool.and_self, Bool.false_and, Bool.false_eq_true,
    if_false, ite_false] at h
  obtain ⟨offerPair, hoff, h⟩ := ebind_eq_ok h
  rw [hd, ebind_ok, ha, ebind_ok] at h
  rw [show mergeCategory a c =
      Except.ok (setA a "appCategory" (Json.arr (cats ++ [cat]))) from by
    unfold mergeCategory objGetE
    simp [hcne, hcats, hcat]] at h
  rw [ebind_ok] at h
  obtain ⟨ar, har, h⟩ := ebind_eq_ok h
  obtain ⟨promo, hpromo, h⟩ := ebind_eq_ok h
  obtain ⟨descr, hdescr, h⟩ := ebind_eq_ok h
  obtain ⟨transDescr, htrans, h⟩ := ebind_eq_ok h
  obtain ⟨upload, hupload, h⟩ := ebind_eq_ok h
  obtain ⟨iap, hiap, h⟩ := ebind_eq_ok h
  have hrec := Option.some.inj (Except.ok.inj h)
  rw [← hrec]
  simp [lookupA_setA_self]

/-- Primary Google Play details file used as a witness input. -/
def gpPrimaryExample : JsonObj :=
  [("docId", Json.str "app"),
   ("promotionalDescription", Json.str "promo"),
   ("descriptionHtml", Json.str "desc"),
   ("translatedDescriptionHtml", Json.str "tdesc"),
   ("details", Json.obj
     [("appDetails", Json.obj
       [("appCategory", Json.arr [Json.str "GAME"])])])]

/-- Category file used as a witness input. -/
def gpCategoryExample : JsonObj := [("appCategory", Json.str "TOOLS")]

/-- A details directory holding both files for package `app`. -/
def gpFsExample : PlayFS :=
  ⟨[("d/app.json", (gpPrimaryExample, 100)),
    ("d/categories/app.json", (gpCategoryExample, 200))]⟩

/-- The record `parse_google_play_info` produces for `gpFsExample`. -/
def gpRecordExample : GPRecord :=
  { docId := Json.str "app", uri := Json.null,
    snapshotTimestamp := some 100, title := Json.null,
    appCategory := Json.arr [Json.str "GAME", Json.str "TOOLS"],
    promotionalDescription := Json.str "promo",
    descriptionHtml := Json.str "desc",
    translatedDescriptionHtml := Json.str "tdesc",
    versionCode := Json.null, versionString := Json.null,
    uploadDate := none, formattedAmount := Json.null,
    currencyCode := Json.null, inAppPurchases := Json.null,
    installNotes := Json.null, starRating := Json.null,
    numDownloads := Json.null, developerName := Json.null,
    developerEmail := Json.null, developerWebsite := Json.null,
    targetSdkVersion := Json.null, permissions := Json.null }

/-- C6 witness: at the concrete two-file directory the merged category list
is `[GAME, TOOLS]` — the primary file's list followed by the appended
category-file entry. -/
theorem claim_category_merge_witness :
    gpRecordExample.appCategory =
      Json.arr ([Json.str "GAME"] ++ [Json.str "TOOLS"]) :=
  claim_category_merge "app" "d" gpFsExample gpRecordExample
    gpPrimaryExample 100 gpCategoryExample 200 (Json.str "TOOLS")
    [Json.str "GAME"]
    [("appDetails", Json.obj [("appCategory", Json.arr [Json.str "GAME"])])]
    [("appCategory", Json.arr [Json.str "GAME"])]
    rfl rfl rfl rfl rfl rfl rfl rfl rfl
